import Mathlib

/-!
Verification of the AWS SQS trigger node
(`src/nodes/AwsSqsTrigger/AwsSqsTrigger.node.ts`).

The development shallowly embeds the `trigger` method of the node:
option handling and receive-request construction (lines 166-239),
the per-cycle executor `executeTrigger` (lines 241-294), and the
self-rearming timer / stop lifecycle (lines 296-323).

JavaScript runtime details that the code relies on are modelled
explicitly: truthiness of option values, `typeof x === 'number'`
gating, template-literal stringification, `encodeURIComponent`,
and the `setTimeout`/`clearTimeout` scheduling discipline (as a
small event-driven state machine).  JS numbers are modelled as
integers: every numeric constant in the code and in the claims is
an integer, and no arithmetic in the modelled paths can produce a
non-integer from integer inputs.
-/

namespace SqsTrigger

/-- A JavaScript value as it can appear in the node's `options`
collection (`IDataObject`).  A key missing from the collection reads
as `undefined`. -/
inductive JSValue where
  | undefined
  | null
  | bool (b : Bool)
  | num (n : Int)
  | str (s : String)
deriving DecidableEq

/-- JavaScript truthiness, as used by the `if (options.x)` guards. -/
def truthy : JSValue → Bool
  | .undefined => false
  | .null => false
  | .bool b => b
  | .num n => n != 0
  | .str s => s != ""

/-- Whether `typeof v === 'number'` holds. -/
def isNum : JSValue → Bool
  | .num _ => true
  | _ => false

/-- Template-literal stringification of a JS value, as in
`WaitTimeSeconds=${options.waitTimeSeconds}`. -/
def jsToString : JSValue → String
  | .undefined => "undefined"
  | .null => "null"
  | .bool b => if b then "true" else "false"
  | .num n => toString n
  | .str s => s

/-- The `options` collection parameter of the node (lines 173, 86-124).
Keys absent from the collection are `undefined`. -/
structure Options where
  deleteMessages : JSValue := JSValue.undefined
  visibilityTimeout : JSValue := JSValue.undefined
  maxNumberOfMessages : JSValue := JSValue.undefined
  waitTimeSeconds : JSValue := JSValue.undefined
deriving DecidableEq

/-- The errors the `trigger` method can throw synchronously at startup
(all are `NodeOperationError` except the too-large interval, which is a
`NodeApiError`; the distinction does not affect control flow). -/
inductive TriggerError where
  | visibilityRange
  | maxMessagesRange
  | waitTimeRange
  | intervalTooSmall
  | intervalTooLarge
deriving DecidableEq

/-- The receive-request parameters always present (lines 175-180). -/
def baseReceiveParams : List String :=
  ["Version=2012-11-05", "Action=ReceiveMessage", "MessageAttributeName=All",
    "AttributeName=All"]

/-- Lines 182-196: the `VisibilityTimeout` parameter.  The range check
runs only when the value is truthy AND a number; a truthy non-number is
silently dropped. -/
def visibilityParams (v : JSValue) : Except TriggerError (List String) :=
  if truthy v then
    match v with
    | .num n =>
        if n < 0 ∨ n > 43200 then Except.error TriggerError.visibilityRange
        else Except.ok ["VisibilityTimeout=" ++ toString n]
    | _ => Except.ok []
  else Except.ok []

/-- Lines 198-212: the `MaxNumberOfMessages` parameter, same gating
shape as the visibility timeout. -/
def maxMessagesParams (v : JSValue) : Except TriggerError (List String) :=
  if truthy v then
    match v with
    | .num n =>
        if n < 1 ∨ n > 10 then Except.error TriggerError.maxMessagesRange
        else Except.ok ["MaxNumberOfMessages=" ++ toString n]
    | _ => Except.ok []
  else Except.ok []

/-- Lines 214-222: the `WaitTimeSeconds` parameter.  The range check is
guarded by `typeof === 'number'`, but the push is NOT: a truthy value of
any type is appended with template-literal stringification. -/
def waitTimeOutOfRange : JSValue → Bool
  | .num n => n < 0 ∨ n > 20
  | _ => false

/-- Lines 214-222 continued: a truthy wait time throws only when
out of range (per the gate above), and is then pushed whatever its
type. -/
def waitTimeParams (v : JSValue) : Except TriggerError (List String) :=
  if truthy v then
    if waitTimeOutOfRange v then Except.error TriggerError.waitTimeRange
    else Except.ok ["WaitTimeSeconds=" ++ jsToString v]
  else Except.ok []

/-- Lines 175-222: the full receive-request parameter list, with the
three option checks in source order (visibility, max messages, wait
time); the first failing check throws. -/
def buildReceiveParams (o : Options) : Except TriggerError (List String) := do
  let vp ← visibilityParams o.visibilityTimeout
  let mp ← maxMessagesParams o.maxNumberOfMessages
  let wp ← waitTimeParams o.waitTimeSeconds
  pure (baseReceiveParams ++ vp ++ mp ++ wp)

/-- Line 239's `Number(options.waitTimeSeconds || 0)`: a falsy value
becomes `0`; a truthy number is itself.  (A truthy non-number would be
`NaN` in JS; that case is outside every claim's valid-configuration
hypothesis and is mapped to `0` here.) -/
def numberOrZero (v : JSValue) : Int :=
  match (if truthy v then v else JSValue.num 0) with
  | .num n => n
  | _ => 0

/-- Lines 231-239 and 296: unit scaling (two sequential `if`s), then
`Math.max` against the wait time, then the multiplication by 1000. -/
def normalizedDelayMs (interval : Int) (unit : String) (wait : JSValue) : Int :=
  let v := if unit = "minutes" then interval * 60 else interval
  let v := if unit = "hours" then v * 60 * 60 else v
  let v := max v (numberOrZero wait)
  v * 1000

/-- The node parameters read at the start of `trigger` (lines 167-173). -/
structure Config where
  interval : Int
  unit : String
  options : Options
deriving DecidableEq

/-- What a successful `trigger` startup has computed by the time the
first timer is armed (line 304). -/
structure TriggerResult where
  receiveParams : List String
  delayMs : Int
deriving DecidableEq

/-- Lines 166-304 up to the first `setTimeout`: option validation in
source order, then the `interval <= 0` check (line 224), then delay
normalization, then the 2147483647 ms overflow check (line 299).
An `Except.error` models a synchronous throw out of `trigger`, before
any timer exists. -/
def trigger (cfg : Config) : Except TriggerError TriggerResult :=
  match buildReceiveParams cfg.options with
  | .error e => Except.error e
  | .ok params =>
      if cfg.interval ≤ 0 then Except.error TriggerError.intervalTooSmall
      else
        let delayMs := normalizedDelayMs cfg.interval cfg.unit cfg.options.waitTimeSeconds
        if delayMs > 2147483647 then Except.error TriggerError.intervalTooLarge
        else Except.ok ⟨params, delayMs⟩

/-- How many timers `trigger` has armed when it returns: the initial
`setTimeout(run, 0)` on success, none on a synchronous throw. -/
def timersArmedAtStart : Except TriggerError TriggerResult → Nat
  | .ok _ => 1
  | .error _ => 0

/-- A hexadecimal digit character (uppercase, as produced by
JS percent-encoding). -/
def hexDigit (n : Nat) : Char :=
  if n < 10 then Char.ofNat (48 + n) else Char.ofNat (55 + n)

/-- Two-digit uppercase hexadecimal rendering of a byte. -/
def byteToHex (b : Nat) : String :=
  String.mk [hexDigit (b / 16), hexDigit (b % 16)]

/-- UTF-8 byte sequence of a character, computed from its code point. -/
def utf8Bytes (c : Char) : List Nat :=
  let n := c.toNat
  if n < 128 then [n]
  else if n < 2048 then [192 + n / 64, 128 + n % 64]
  else if n < 65536 then [224 + n / 4096, 128 + (n / 64) % 64, 128 + n % 64]
  else [240 + n / 262144, 128 + (n / 4096) % 64, 128 + (n / 64) % 64, 128 + n % 64]

/-- The characters `encodeURIComponent` leaves unescaped: ASCII
alphanumerics and `- _ . ! ~ * ' ( )` (`Char.ofNat 39` is the
apostrophe). -/
def isURIUnreserved (c : Char) : Bool :=
  (c.isAlpha && c.toNat < 128) || c.isDigit || c = '-' || c = '_' || c = '.' ||
    c = '!' || c = '~' || c = '*' || c = Char.ofNat 39 || c = '(' || c = ')'

/-- JS `encodeURIComponent`: every character outside the unreserved set
is replaced by the percent-escaped UTF-8 bytes of the character. -/
def encodeURIComponent (s : String) : String :=
  String.join (s.toList.map (fun c =>
    if isURIUnreserved c then String.singleton c
    else String.join ((utf8Bytes c).map (fun b => "%" ++ byteToHex b))))

/-- One received SQS message, as far as the core inspects it: the
receipt handle used for deletion.  The rest of the message object is
opaque payload. -/
structure Message where
  ReceiptHandle : String
deriving DecidableEq

/-- The shape of `receiveMessageResult?.Message` in the parsed SOAP
response: absent/falsy, a single message object, or an array. -/
inductive MessagesField where
  | absent
  | one (m : Message)
  | array (ms : List Message)
deriving DecidableEq

/-- Outcome of the receive call: the transport either raises or yields
a parsed response whose `Message` field has the given shape. -/
inductive ReceiveOutcome where
  | failure
  | success (msgs : MessagesField)
deriving DecidableEq

/-- Outcome of an awaited collaborator call (delete request, sink
`emit`): it returns normally or raises. -/
inductive CallResult where
  | ok
  | raises
deriving DecidableEq

/-- Lines 251-253: `if (!messages) return;` then
`Array.isArray(messages) ? messages : [messages]`. -/
def normalizeMessages : MessagesField → Option (List Message)
  | .absent => none
  | .one m => some [m]
  | .array ms => some ms

/-- The externally observable actions of one cycle, in order: the
receive request, the delete request (single or batch, carrying its
query parameters), the sink emission (line 289), and a write to the
error log by the `catch` block (lines 291-293).  A cycle whose trace
ends without `logError` returned normally; `logError` marks an
exception that was caught inside the cycle. -/
inductive Action where
  | receiveCall (params : List String)
  | deleteCall (params : List String)
  | emitCall (ms : List Message)
  | logError
deriving DecidableEq

def Action.isDeleteCall : Action → Bool
  | .deleteCall _ => true
  | _ => false

def Action.isEmitCall : Action → Bool
  | .emitCall _ => true
  | _ => false

/-- Line 268: the `Id=msg<i>` entry of the batch-delete request, for
1-based id `n`. -/
def batchEntryId (n : Nat) : String :=
  "DeleteMessageBatchRequestEntry." ++ toString n ++ ".Id=msg" ++ toString n

/-- Lines 269-271: the percent-encoded receipt-handle entry of the
batch-delete request, for 1-based id `n`. -/
def batchEntryReceipt (n : Nat) (m : Message) : String :=
  "DeleteMessageBatchRequestEntry." ++ toString n ++ ".ReceiptHandle=" ++
    encodeURIComponent m.ReceiptHandle

/-- Lines 263-273: the loop body pushing, for each message at 0-based
index `i`, its id entry and its receipt-handle entry. -/
def batchEntries : Nat → List Message → List String
  | _, [] => []
  | i, m :: rest =>
      batchEntryId (i + 1) :: batchEntryReceipt (i + 1) m :: batchEntries (i + 1) rest

/-- Lines 257-279: the delete-request parameters.  More than one
message yields a batch delete; otherwise a single delete reads
`messagesArray[0]` — on an empty array that access throws a
`TypeError` (caught by the cycle's `catch`), modelled as `none`. -/
def buildDeleteParams (ms : List Message) : Option (List String) :=
  if ms.length > 1 then
    some (["Version=2012-11-05", "Action=DeleteMessageBatch"] ++ batchEntries 0 ms)
  else
    match ms with
    | m :: _ =>
        some ["Version=2012-11-05", "Action=DeleteMessage",
          "ReceiptHandle=" ++ encodeURIComponent m.ReceiptHandle]
    | [] => none

/-- Lines 241-294, the cycle executor, as the ordered trace of its
observable actions.  The whole body sits in one `try`; the `catch`
logs and swallows any exception, so the function always returns.
Control flow: receive; return if no messages; if `options.deleteMessages`
is truthy, build and issue the delete request (its failure aborts the
cycle before the emit); then emit; an emit exception is caught by the
same `catch`. -/
def executeTrigger (deleteMessages : JSValue) (receiveParams : List String)
    (recv : ReceiveOutcome) (deleteResult : CallResult) (emitResult : CallResult) :
    List Action :=
  let receiveAct := Action.receiveCall receiveParams
  match recv with
  | .failure => [receiveAct, Action.logError]
  | .success msgs =>
      match normalizeMessages msgs with
      | none => [receiveAct]
      | some ms =>
          if truthy deleteMessages then
            match buildDeleteParams ms with
            | none => [receiveAct, Action.logError]
            | some dp =>
                match deleteResult with
                | .raises => [receiveAct, Action.deleteCall dp, Action.logError]
                | .ok =>
                    match emitResult with
                    | .raises =>
                        [receiveAct, Action.deleteCall dp, Action.emitCall ms,
                          Action.logError]
                    | .ok => [receiveAct, Action.deleteCall dp, Action.emitCall ms]
          else
            match emitResult with
            | .raises => [receiveAct, Action.emitCall ms, Action.logError]
            | .ok => [receiveAct, Action.emitCall ms]

/-- The scheduler's state (lines 303-319): the `running` flag, the
`inFlight` flag, whether a `setTimeout` is pending, and instrumentation
counting cycle-executor invocations started and completed. -/
structure SchedState where
  running : Bool
  inFlight : Bool
  timerArmed : Bool
  cyclesStarted : Nat
  cyclesCompleted : Nat
deriving DecidableEq

/-- The state right after `trigger` returns: `running = true`
(line 303), the zero-delay initial timer armed (line 304), no cycle in
flight (line 305). -/
def initState : SchedState :=
  ⟨true, false, true, 0, 0⟩

/-- The scheduler events: the pending timer fires (`run` is invoked),
the awaited `executeTrigger` of the in-flight cycle completes (the
`finally` of lines 309-310 runs), or the host calls `closeFunction`. -/
inductive Event where
  | fire
  | complete
  | stop
deriving DecidableEq

/-- Lines 312-314: `rearm` arms a new timer only while `running`. -/
def rearm (s : SchedState) : SchedState :=
  if s.running then { s with timerArmed := true } else s

/-- One scheduler transition.
`fire` (lines 306-311): consumes the pending timer; if a cycle is in
flight the tick only rearms, otherwise the cycle executor is invoked
with `inFlight` set.
`complete` (line 310): the `finally` clears `inFlight` and rearms.
`stop` (lines 316-319): `closeFunction` clears `running` and cancels
the pending timer. -/
def step : SchedState → Event → SchedState
  | s, .fire =>
      if s.timerArmed then
        let t := { s with timerArmed := false }
        if t.inFlight then rearm t
        else { t with inFlight := true, cyclesStarted := t.cyclesStarted + 1 }
      else s
  | s, .complete =>
      if s.inFlight then
        rearm { s with inFlight := false, cyclesCompleted := s.cyclesCompleted + 1 }
      else s
  | s, .stop => { s with running := false, timerArmed := false }

/-- The state after a sequence of scheduler events from startup. -/
def runEvents (l : List Event) : SchedState :=
  l.foldl step initState

/-- Modelled from the spec: unit factor converting an interval value
directly to milliseconds (seconds -> 1000, minutes -> 60000,
hours -> 3600000). -/
def unitFactorMs (unit : String) : Int :=
  if unit = "minutes" then 60000 else if unit = "hours" then 3600000 else 1000

/-- Modelled from the spec: testable property §8, `normalizedDelayMs ==
max(interval*unitFactor, waitTimeSeconds*1000)`. -/
def specNormalizedDelayMs (interval : Int) (unit : String) (waitTimeSeconds : Int) : Int :=
  max (interval * unitFactorMs unit) (waitTimeSeconds * 1000)

/-- The cycle-count bookkeeping invariant of the scheduler: the number
of started invocations exceeds the completed ones exactly when a cycle
is in flight. -/
def SchedInv (s : SchedState) : Prop :=
  s.cyclesStarted = s.cyclesCompleted + (if s.inFlight then 1 else 0)

theorem schedInv_init : SchedInv initState := by
  simp [SchedInv, initState]

theorem schedInv_step (s : SchedState) (e : Event) (h : SchedInv s) :
    SchedInv (step s e) := by
  obtain ⟨r, f, t, cs, cc⟩ := s
  cases e <;> cases r <;> cases f <;> cases t <;>
    simp_all [SchedInv, step, rearm]

theorem schedInv_foldl (l : List Event) (s : SchedState) (h : SchedInv s) :
    SchedInv (l.foldl step s) := by
  induction l generalizing s with
  | nil => exact h
  | cons e rest ih => exact ih (step s e) (schedInv_step s e h)

theorem schedInv_runEvents (l : List Event) : SchedInv (runEvents l) :=
  schedInv_foldl l initState schedInv_init

/-- After `closeFunction` the flags stay cleared and no cycle ever
starts again. -/
theorem stopped_step (s : SchedState) (e : Event) (h1 : s.running = false)
    (h2 : s.timerArmed = false) :
    (step s e).running = false ∧ (step s e).timerArmed = false ∧
      (step s e).cyclesStarted = s.cyclesStarted := by
  obtain ⟨r, f, t, cs, cc⟩ := s
  cases e <;> cases f <;> simp_all [step, rearm]

theorem stopped_foldl (l : List Event) (s : SchedState) (h1 : s.running = false)
    (h2 : s.timerArmed = false) :
    (l.foldl step s).running = false ∧ (l.foldl step s).timerArmed = false ∧
      (l.foldl step s).cyclesStarted = s.cyclesStarted := by
  induction l generalizing s with
  | nil => exact ⟨h1, h2, rfl⟩
  | cons e rest ih =>
      obtain ⟨r1, r2, r3⟩ := stopped_step s e h1 h2
      obtain ⟨q1, q2, q3⟩ := ih (step s e) r1 r2
      exact ⟨q1, q2, q3.trans r3⟩

theorem batchEntries_length (ms : List Message) (i : Nat) :
    (batchEntries i ms).length = 2 * ms.length := by
  induction ms generalizing i with
  | nil => simp [batchEntries]
  | cons m rest ih => simp [batchEntries, ih, Nat.mul_succ]

theorem batchEntries_get (ms : List Message) (k i : Nat) (h : k < ms.length) :
    (batchEntries i ms).get? (2 * k) = some (batchEntryId (i + k + 1)) ∧
      (batchEntries i ms).get? (2 * k + 1) =
        some (batchEntryReceipt (i + k + 1) (ms.get ⟨k, h⟩)) := by
  induction ms generalizing i k with
  | nil => cases h
  | cons m rest ih =>
      cases k with
      | zero => simp [batchEntries]
      | succ k =>
          have hk : k < rest.length := Nat.lt_of_succ_lt_succ h
          have hrec := ih k (i + 1) hk
          have e1 : i + 1 + k + 1 = i + (k + 1) + 1 := by omega
          rw [e1] at hrec
          have h2 : 2 * (k + 1) = 2 * k + 2 := by omega
          refine ⟨?_, ?_⟩
          · rw [h2]
            show (batchEntries (i + 1) rest).get? (2 * k) = _
            exact hrec.1
          · rw [h2]
            show (batchEntries (i + 1) rest).get? (2 * k + 1) = _
            exact hrec.2

theorem numberOrZero_num (w : Int) : numberOrZero (JSValue.num w) = w := by
  by_cases hw : w = 0 <;> simp [numberOrZero, truthy, hw]

theorem max_mul_1000 (a b : Int) : max a b * 1000 = max (a * 1000) (b * 1000) := by
  rcases le_total a b with h | h
  · rw [max_eq_right h, max_eq_right (by linarith)]
  · rw [max_eq_left h, max_eq_left (by linarith)]

theorem visibilityParams_error (v : Int) (hr : v < 0 ∨ v > 43200) :
    visibilityParams (JSValue.num v) = Except.error TriggerError.visibilityRange := by
  have hv0 : (v != 0) = true := by simp; omega
  simp [visibilityParams, truthy, hv0, hr]

theorem maxMessagesParams_error (v : Int) (hv0 : v ≠ 0) (hr : v < 1 ∨ v > 10) :
    maxMessagesParams (JSValue.num v) = Except.error TriggerError.maxMessagesRange := by
  have hb : (v != 0) = true := by simp [hv0]
  simp [maxMessagesParams, truthy, hb, hr]

theorem waitTimeParams_error (v : Int) (hr : v < 0 ∨ v > 20) :
    waitTimeParams (JSValue.num v) = Except.error TriggerError.waitTimeRange := by
  have hv0 : (v != 0) = true := by simp; omega
  have hw : waitTimeOutOfRange (JSValue.num v) = true := by
    simp [waitTimeOutOfRange, hr]
  simp [waitTimeParams, truthy, hv0, hw]

theorem buildDeleteParams_isSome (ms : List Message) (h : ms ≠ []) :
    ∃ dp, buildDeleteParams ms = some dp := by
  cases ms with
  | nil => exact absurd rfl h
  | cons m rest => cases rest <;> simp [buildDeleteParams]

/-- C5: for every valid configuration the armed delay in milliseconds is
`max(interval` converted to ms by its unit factor`, waitTimeSeconds * 1000)`;
in particular `waitTimeSeconds = 20` with a one-second interval arms a
20000 ms delay. -/
theorem c5_normalized_delay (interval : Int) (unit : String) (w : Int)
    (hu : unit = "seconds" ∨ unit = "minutes" ∨ unit = "hours") :
    normalizedDelayMs interval unit (JSValue.num w) =
        specNormalizedDelayMs interval unit w ∧
      normalizedDelayMs interval unit JSValue.undefined =
        specNormalizedDelayMs interval unit 0 ∧
      normalizedDelayMs 1 "seconds" (JSValue.num 20) = 20000 := by
  have hz : numberOrZero JSValue.undefined = 0 := rfl
  rcases hu with hu | hu | hu <;> subst hu <;>
    refine ⟨?_, ?_, by decide⟩ <;>
    simp [normalizedDelayMs, specNormalizedDelayMs, unitFactorMs, numberOrZero_num,
      hz, max_mul_1000] <;> ring_nf

/-- C5 witness: the end-to-end scenario `interval = 1 second`,
`waitTimeSeconds = 20`. -/
theorem c5_witness :
    normalizedDelayMs 1 "seconds" (JSValue.num 20) =
        specNormalizedDelayMs 1 "seconds" 20 ∧
      specNormalizedDelayMs 1 "seconds" 20 = 20000 :=
  ⟨(c5_normalized_delay 1 "seconds" 20 (Or.inl rfl)).1, by decide⟩

/-- C7: an interval ≤ 0, or a normalized delay above the host timer's
2147483647 ms maximum, makes `trigger` throw synchronously, so no timer
is ever armed and no cycle ever executes. -/
theorem c7_startup_rejection (cfg : Config)
    (h : cfg.interval ≤ 0 ∨
      normalizedDelayMs cfg.interval cfg.unit cfg.options.waitTimeSeconds > 2147483647) :
    (∃ e, trigger cfg = Except.error e) ∧ timersArmedAtStart (trigger cfg) = 0 := by
  have key : ∃ e, trigger cfg = Except.error e := by
    cases hre : buildReceiveParams cfg.options with
    | error e => exact ⟨e, by simp [trigger, hre]⟩
    | ok params =>
        by_cases hi : cfg.interval ≤ 0
        · exact ⟨TriggerError.intervalTooSmall, by simp [trigger, hre, hi]⟩
        · have hd := h.resolve_left hi
          exact ⟨TriggerError.intervalTooLarge, by simp [trigger, hre, hi, hd]⟩
  obtain ⟨e, he⟩ := key
  exact ⟨⟨e, he⟩, by simp [timersArmedAtStart, he]⟩

/-- C7 witness: a zero interval is rejected at startup. -/
theorem c7_witness :
    (0 : Int) ≤ 0 ∧
      (∃ e, trigger ⟨0, "seconds", {}⟩ = Except.error e) ∧
      timersArmedAtStart (trigger ⟨0, "seconds", {}⟩) = 0 :=
  ⟨le_refl 0, c7_startup_rejection ⟨0, "seconds", {}⟩ (Or.inl (le_refl 0))⟩

/-- C3 counterexample: with `visibilityTimeout = 50000` the node does
NOT skip a cycle and keep polling — `trigger` itself throws at startup
and no timer is ever armed, so there is no cycle, no local catch and no
continuing scheduler. -/
theorem c3_counterexample :
    trigger ⟨1, "seconds", { visibilityTimeout := JSValue.num 50000 }⟩ =
        Except.error TriggerError.visibilityRange ∧
      timersArmedAtStart
        (trigger ⟨1, "seconds", { visibilityTimeout := JSValue.num 50000 }⟩) = 0 :=
  ⟨rfl, rfl⟩

/-- C3 amended: any truthy out-of-range numeric option value — a
visibility timeout outside [0,43200], a nonzero max messages outside
[1,10] (zero is falsy and treated as unset), or a wait time outside
[0,20] — is detected once, synchronously, inside `trigger` at startup:
the error propagates to the host, no timer is armed, no receive call is
ever issued and the instance never begins running. -/
theorem c3_validation_at_startup (cfg : Config)
    (h : (∃ v : Int, cfg.options.visibilityTimeout = JSValue.num v ∧
            (v < 0 ∨ v > 43200)) ∨
      (∃ v : Int, cfg.options.maxNumberOfMessages = JSValue.num v ∧ v ≠ 0 ∧
        (v < 1 ∨ v > 10)) ∨
      (∃ v : Int, cfg.options.waitTimeSeconds = JSValue.num v ∧ (v < 0 ∨ v > 20))) :
    (∃ e, trigger cfg = Except.error e) ∧ timersArmedAtStart (trigger cfg) = 0 := by
  have hb : ∃ e, buildReceiveParams cfg.options = Except.error e := by
    rcases h with ⟨v, hv, hr⟩ | ⟨v, hv, hv0, hr⟩ | ⟨v, hv, hr⟩
    · refine ⟨TriggerError.visibilityRange, ?_⟩
      unfold buildReceiveParams
      rw [hv, visibilityParams_error v hr]
      rfl
    · cases hvp : visibilityParams cfg.options.visibilityTimeout with
      | error e =>
          exact ⟨e, by unfold buildReceiveParams; rw [hvp]; rfl⟩
      | ok vp =>
          refine ⟨TriggerError.maxMessagesRange, ?_⟩
          unfold buildReceiveParams
          rw [hvp, hv, maxMessagesParams_error v hv0 hr]
          rfl
    · cases hvp : visibilityParams cfg.options.visibilityTimeout with
      | error e =>
          exact ⟨e, by unfold buildReceiveParams; rw [hvp]; rfl⟩
      | ok vp =>
          cases hmp : maxMessagesParams cfg.options.maxNumberOfMessages with
          | error e =>
              exact ⟨e, by unfold buildReceiveParams; rw [hvp, hmp]; rfl⟩
          | ok mp =>
              refine ⟨TriggerError.waitTimeRange, ?_⟩
              unfold buildReceiveParams
              rw [hvp, hmp, hv, waitTimeParams_error v hr]
              rfl
  obtain ⟨e, he⟩ := hb
  exact ⟨⟨e, by simp [trigger, he]⟩, by simp [trigger, he, timersArmedAtStart]⟩

/-- C3 witness: the spec's scenario value `visibilityTimeout = 50000`,
plus an out-of-range max messages (11) and wait time (21), each
rejected synchronously at startup. -/
theorem c3_witness :
    ((50000 : Int) < 0 ∨ (50000 : Int) > 43200) ∧
      ((11 : Int) ≠ 0 ∧ ((11 : Int) < 1 ∨ (11 : Int) > 10)) ∧
      ((21 : Int) < 0 ∨ (21 : Int) > 20) ∧
      (∃ e, trigger ⟨1, "seconds", { visibilityTimeout := JSValue.num 50000 }⟩ =
        Except.error e) ∧
      (∃ e, trigger ⟨1, "seconds", { maxNumberOfMessages := JSValue.num 11 }⟩ =
        Except.error e) ∧
      (∃ e, trigger ⟨1, "seconds", { waitTimeSeconds := JSValue.num 21 }⟩ =
        Except.error e) :=
  ⟨Or.inr (by decide), ⟨by decide, Or.inr (by decide)⟩, Or.inr (by decide),
    (c3_validation_at_startup ⟨1, "seconds", { visibilityTimeout := JSValue.num 50000 }⟩
      (Or.inl ⟨50000, rfl, Or.inr (by decide)⟩)).1,
    (c3_validation_at_startup ⟨1, "seconds", { maxNumberOfMessages := JSValue.num 11 }⟩
      (Or.inr (Or.inl ⟨11, rfl, by decide, Or.inr (by decide)⟩))).1,
    (c3_validation_at_startup ⟨1, "seconds", { waitTimeSeconds := JSValue.num 21 }⟩
      (Or.inr (Or.inr ⟨21, rfl, Or.inr (by decide)⟩))).1⟩

/-- C9: options are gated on truthiness, not presence.  Setting
`visibilityTimeout`, `maxNumberOfMessages` or `waitTimeSeconds` to `0`
yields exactly the request (and delay) of an unset option with no range
check; an empty options collection yields the bare base request; a
falsy `deleteMessages` behaves exactly like an absent one and issues no
delete call. -/
theorem c9_falsy_options_unset :
    (∀ o : Options, buildReceiveParams { o with visibilityTimeout := JSValue.num 0 } =
        buildReceiveParams { o with visibilityTimeout := JSValue.undefined }) ∧
      (∀ o : Options, buildReceiveParams { o with maxNumberOfMessages := JSValue.num 0 } =
        buildReceiveParams { o with maxNumberOfMessages := JSValue.undefined }) ∧
      (∀ o : Options, buildReceiveParams { o with waitTimeSeconds := JSValue.num 0 } =
        buildReceiveParams { o with waitTimeSeconds := JSValue.undefined }) ∧
      (∀ (interval : Int) (unit : String),
        normalizedDelayMs interval unit (JSValue.num 0) =
          normalizedDelayMs interval unit JSValue.undefined) ∧
      buildReceiveParams {} = Except.ok baseReceiveParams ∧
      (∀ (rp : List String) (recv : ReceiveOutcome) (dr er : CallResult),
        executeTrigger (JSValue.bool false) rp recv dr er =
            executeTrigger JSValue.undefined rp recv dr er ∧
          (executeTrigger (JSValue.bool false) rp recv dr er).countP
            Action.isDeleteCall = 0) := by
  refine ⟨?_, ?_, ?_, ?_, rfl, ?_⟩
  · intro o
    simp [buildReceiveParams, visibilityParams, truthy]
  · intro o
    simp [buildReceiveParams, maxMessagesParams, truthy]
  · intro o
    simp [buildReceiveParams, waitTimeParams, truthy]
  · intro interval unit
    simp [normalizedDelayMs, numberOrZero_num]
    rfl
  · intro rp recv dr er
    cases recv with
    | failure => exact ⟨rfl, rfl⟩
    | success msgs =>
        cases msgs <;> cases dr <;> cases er <;>
          simp [executeTrigger, truthy, normalizeMessages, List.countP_cons,
            Action.isDeleteCall]

/-- C10: range validation is gated on `typeof === 'number'`, with
asymmetric fallout: truthy non-number visibility timeout and max
messages are silently dropped (no throw, no parameter), while a truthy
non-number wait time is appended raw as `WaitTimeSeconds=` with no range
check and no throw. -/
theorem c10_non_number_options (vis mx wt d : JSValue)
    (h1 : truthy vis = true) (h2 : isNum vis = false)
    (h3 : truthy mx = true) (h4 : isNum mx = false)
    (h5 : truthy wt = true) (h6 : isNum wt = false) :
    buildReceiveParams ⟨d, vis, mx, wt⟩ =
      Except.ok (baseReceiveParams ++ ["WaitTimeSeconds=" ++ jsToString wt]) := by
  have hv : visibilityParams vis = Except.ok [] := by
    cases vis <;> simp_all [visibilityParams, isNum]
  have hm : maxMessagesParams mx = Except.ok [] := by
    cases mx <;> simp_all [maxMessagesParams, isNum]
  have hw : waitTimeParams wt = Except.ok ["WaitTimeSeconds=" ++ jsToString wt] := by
    cases wt <;> simp_all [waitTimeParams, waitTimeOutOfRange, isNum]
  simp only [buildReceiveParams, hv, hm, hw]
  rfl

/-- C10 witness: a truthy string visibility timeout, boolean max
messages and string wait time. -/
theorem c10_witness :
    truthy (JSValue.str "high") = true ∧ isNum (JSValue.str "high") = false ∧
      truthy (JSValue.bool true) = true ∧ isNum (JSValue.bool true) = false ∧
      truthy (JSValue.str "abc") = true ∧ isNum (JSValue.str "abc") = false ∧
      buildReceiveParams
          ⟨JSValue.undefined, JSValue.str "high", JSValue.bool true, JSValue.str "abc"⟩ =
        Except.ok (baseReceiveParams ++
          ["WaitTimeSeconds=" ++ jsToString (JSValue.str "abc")]) :=
  ⟨rfl, rfl, rfl, rfl, rfl, rfl,
    c10_non_number_options (JSValue.str "high") (JSValue.bool true) (JSValue.str "abc")
      JSValue.undefined rfl rfl rfl rfl rfl rfl⟩

/-- C1 counterexample: a cycle that receives one message with
`deleteMessages` enabled and whose delete call raises produces NO sink
emission at all — the delete is attempted first (one delete call in the
trace) and its failure jumps to the catch, skipping the emit. -/
theorem c1_counterexample :
    (executeTrigger (JSValue.bool true) baseReceiveParams
          (ReceiveOutcome.success (MessagesField.one (Message.mk "RH1")))
          CallResult.raises CallResult.ok).countP Action.isEmitCall = 0 ∧
      (executeTrigger (JSValue.bool true) baseReceiveParams
          (ReceiveOutcome.success (MessagesField.one (Message.mk "RH1")))
          CallResult.raises CallResult.ok).countP Action.isDeleteCall = 1 ∧
      Action.logError ∈ executeTrigger (JSValue.bool true) baseReceiveParams
          (ReceiveOutcome.success (MessagesField.one (Message.mk "RH1")))
          CallResult.raises CallResult.ok := by
  refine ⟨rfl, rfl, ?_⟩
  simp [executeTrigger, normalizeMessages, buildDeleteParams, truthy]

/-- C1 amended: in every cycle with messages and `deleteMessages`
enabled, the delete call is attempted BEFORE delivery; a failed delete
suppresses the sink emission for that cycle (the failure is logged),
and only a successful delete is followed by the batch emission. -/
theorem c1_delete_precedes_emit (rp : List String) (f : MessagesField)
    (ms : List Message) (hf : normalizeMessages f = some ms) (hne : ms ≠ [])
    (dr er : CallResult) :
    (dr = CallResult.raises →
      (executeTrigger (JSValue.bool true) rp (ReceiveOutcome.success f) dr er).countP
          Action.isEmitCall = 0 ∧
        Action.logError ∈
          executeTrigger (JSValue.bool true) rp (ReceiveOutcome.success f) dr er) ∧
      (dr = CallResult.ok → ∃ dp,
        executeTrigger (JSValue.bool true) rp (ReceiveOutcome.success f) dr er =
          Action.receiveCall rp :: Action.deleteCall dp :: Action.emitCall ms ::
            (if er = CallResult.raises then [Action.logError] else [])) := by
  obtain ⟨dp, hdp⟩ := buildDeleteParams_isSome ms hne
  constructor
  · rintro rfl
    constructor
    · simp [executeTrigger, hf, hdp, truthy, List.countP_cons, Action.isEmitCall]
    · simp [executeTrigger, hf, hdp, truthy]
  · rintro rfl
    refine ⟨dp, ?_⟩
    cases er <;> simp [executeTrigger, hf, hdp, truthy]

/-- C1 witness: one received message, failing delete. -/
theorem c1_witness :
    normalizeMessages (MessagesField.one (Message.mk "RH1")) = some [Message.mk "RH1"] ∧
      [Message.mk "RH1"] ≠ ([] : List Message) ∧
      CallResult.raises = CallResult.raises ∧
      (executeTrigger (JSValue.bool true) baseReceiveParams
          (ReceiveOutcome.success (MessagesField.one (Message.mk "RH1")))
          CallResult.raises CallResult.ok).countP Action.isEmitCall = 0 :=
  ⟨rfl, by simp,  rfl,
    ((c1_delete_precedes_emit baseReceiveParams (MessagesField.one (Message.mk "RH1"))
        [Message.mk "RH1"] rfl (by simp) CallResult.raises CallResult.ok).1 rfl).1⟩

/-- C2 counterexample: when the sink's `emit` raises, the cycle's catch
block handles it — the trace continues past the emit with a `logError`
and `executeTrigger` returns normally, so the exception does NOT escape
the core. -/
theorem c2_counterexample :
    executeTrigger (JSValue.bool false) baseReceiveParams
        (ReceiveOutcome.success (MessagesField.one (Message.mk "RH1")))
        CallResult.ok CallResult.raises =
      [Action.receiveCall baseReceiveParams, Action.emitCall [Message.mk "RH1"],
        Action.logError] := rfl

/-- C2 amended: `this.emit` is invoked inside the cycle's `try` block,
so a raising emit is caught by the same catch-and-log path as transport
failures: the cycle's trace ends with a log write and the executor
returns normally. -/
theorem c2_sink_failure_caught (rp : List String) (f : MessagesField)
    (ms : List Message) (hf : normalizeMessages f = some ms) (hne : ms ≠ [])
    (dm : JSValue) :
    (truthy dm = false →
      executeTrigger dm rp (ReceiveOutcome.success f) CallResult.ok CallResult.raises =
        [Action.receiveCall rp, Action.emitCall ms, Action.logError]) ∧
      (truthy dm = true → ∃ dp,
        executeTrigger dm rp (ReceiveOutcome.success f) CallResult.ok CallResult.raises =
          [Action.receiveCall rp, Action.deleteCall dp, Action.emitCall ms,
            Action.logError]) := by
  obtain ⟨dp, hdp⟩ := buildDeleteParams_isSome ms hne
  constructor
  · intro hdm
    simp [executeTrigger, hf, hdm]
  · intro hdm
    exact ⟨dp, by simp [executeTrigger, hf, hdm, hdp]⟩

/-- C2 witness: a raising emit with deletion disabled. -/
theorem c2_witness :
    normalizeMessages (MessagesField.one (Message.mk "RH1")) = some [Message.mk "RH1"] ∧
      truthy (JSValue.bool false) = false ∧
      executeTrigger (JSValue.bool false) baseReceiveParams
          (ReceiveOutcome.success (MessagesField.one (Message.mk "RH1")))
          CallResult.ok CallResult.raises =
        [Action.receiveCall baseReceiveParams, Action.emitCall [Message.mk "RH1"],
          Action.logError] :=
  ⟨rfl, rfl,
    (c2_sink_failure_caught baseReceiveParams (MessagesField.one (Message.mk "RH1"))
        [Message.mk "RH1"] rfl (by simp) (JSValue.bool false)).1 rfl⟩

/-- C6: with `deleteMessages` truthy, a response holding exactly one
message (single object or one-element array) yields exactly one
single-delete call carrying the percent-encoded receipt handle, and a
response holding N ≥ 2 messages yields exactly one batch-delete call
whose parameter list has, in receipt order for each 0-based position k,
the id entry `msg(k+1)` at index 2k+2 and the percent-encoded receipt
entry at index 2k+3. -/
theorem c6_delete_call_shape (rp : List String) (dr er : CallResult) :
    (∀ (m : Message) (f : MessagesField), normalizeMessages f = some [m] →
      (executeTrigger (JSValue.bool true) rp (ReceiveOutcome.success f) dr er).countP
          Action.isDeleteCall = 1 ∧
        Action.deleteCall ["Version=2012-11-05", "Action=DeleteMessage",
            "ReceiptHandle=" ++ encodeURIComponent m.ReceiptHandle] ∈
          executeTrigger (JSValue.bool true) rp (ReceiveOutcome.success f) dr er) ∧
      (∀ ms : List Message, 2 ≤ ms.length →
        (executeTrigger (JSValue.bool true) rp
            (ReceiveOutcome.success (MessagesField.array ms)) dr er).countP
            Action.isDeleteCall = 1 ∧
          ∃ dp,
            Action.deleteCall dp ∈ executeTrigger (JSValue.bool true) rp
                (ReceiveOutcome.success (MessagesField.array ms)) dr er ∧
              dp.length = 2 + 2 * ms.length ∧
              dp.get? 0 = some "Version=2012-11-05" ∧
              dp.get? 1 = some "Action=DeleteMessageBatch" ∧
              ∀ (k : Nat) (hk : k < ms.length),
                dp.get? (2 * k + 2) = some (batchEntryId (k + 1)) ∧
                  dp.get? (2 * k + 3) =
                    some (batchEntryReceipt (k + 1) (ms.get ⟨k, hk⟩))) := by
  constructor
  · intro m f hf
    have hdp : buildDeleteParams [m] = some ["Version=2012-11-05", "Action=DeleteMessage",
        "ReceiptHandle=" ++ encodeURIComponent m.ReceiptHandle] := by
      simp [buildDeleteParams]
    cases dr <;> cases er <;>
      simp [executeTrigger, hf, hdp, truthy, List.countP_cons, Action.isDeleteCall]
  · intro ms hms
    have hgt : ms.length > 1 := by omega
    have hdp : buildDeleteParams ms =
        some ("Version=2012-11-05" :: "Action=DeleteMessageBatch" :: batchEntries 0 ms) := by
      simp [buildDeleteParams, hgt]
    have hcount : (executeTrigger (JSValue.bool true) rp
        (ReceiveOutcome.success (MessagesField.array ms)) dr er).countP
        Action.isDeleteCall = 1 := by
      cases dr <;> cases er <;>
        simp [executeTrigger, normalizeMessages, hdp, truthy, List.countP_cons,
          Action.isDeleteCall]
    refine ⟨hcount,
      ⟨"Version=2012-11-05" :: "Action=DeleteMessageBatch" :: batchEntries 0 ms,
        ?_, ?_, rfl, rfl, ?_⟩⟩
    · cases dr <;> cases er <;>
        simp [executeTrigger, normalizeMessages, hdp, truthy]
    · simp [batchEntries_length]
      omega
    · intro k hk
      have hrec := batchEntries_get ms k 0 hk
      refine ⟨?_, ?_⟩
      · show (batchEntries 0 ms).get? (2 * k) = _
        simpa using hrec.1
      · show (batchEntries 0 ms).get? (2 * k + 1) = _
        simpa using hrec.2

/-- C6 witness: a one-message response and a two-message response, with
all collaborator calls succeeding. -/
theorem c6_witness :
    normalizeMessages (MessagesField.one (Message.mk "RH1")) = some [Message.mk "RH1"] ∧
      2 ≤ ([Message.mk "A1", Message.mk "B2"] : List Message).length ∧
      (executeTrigger (JSValue.bool true) baseReceiveParams
          (ReceiveOutcome.success (MessagesField.one (Message.mk "RH1")))
          CallResult.ok CallResult.ok).countP Action.isDeleteCall = 1 ∧
      (executeTrigger (JSValue.bool true) baseReceiveParams
          (ReceiveOutcome.success (MessagesField.array [Message.mk "A1", Message.mk "B2"]))
          CallResult.ok CallResult.ok).countP Action.isDeleteCall = 1 :=
  ⟨rfl, by simp,
    ((c6_delete_call_shape baseReceiveParams CallResult.ok CallResult.ok).1
        (Message.mk "RH1") (MessagesField.one (Message.mk "RH1")) rfl).1,
    ((c6_delete_call_shape baseReceiveParams CallResult.ok CallResult.ok).2
        [Message.mk "A1", Message.mk "B2"] (by simp)).1⟩

/-- C4: along every event trace from startup, in-flight cycle-executor
invocations never exceed one (`cyclesStarted` never runs more than one
ahead of `cyclesCompleted`, and is ahead exactly when `inFlight` holds),
and a timer firing while a cycle is in flight starts no new invocation:
the tick only rearms the timer (when still running) and leaves the
cycle counts untouched. -/
theorem c4_single_cycle_in_flight :
    (∀ l : List Event,
      (runEvents l).cyclesCompleted ≤ (runEvents l).cyclesStarted ∧
        (runEvents l).cyclesStarted ≤ (runEvents l).cyclesCompleted + 1 ∧
        ((runEvents l).inFlight = true ↔
          (runEvents l).cyclesStarted = (runEvents l).cyclesCompleted + 1)) ∧
      (∀ s : SchedState, s.inFlight = true →
        (step s Event.fire).cyclesStarted = s.cyclesStarted ∧
          (step s Event.fire).inFlight = true ∧
          (s.running = true → s.timerArmed = true →
            (step s Event.fire).timerArmed = true)) := by
  constructor
  · intro l
    have hinv := schedInv_runEvents l
    unfold SchedInv at hinv
    cases hf : (runEvents l).inFlight <;> simp [hf] at hinv ⊢ <;> omega
  · intro s hs
    obtain ⟨r, f, t, cs, cc⟩ := s
    cases r <;> cases t <;> simp_all [step, rearm]

/-- C4 witness: the first fire from startup puts one cycle in flight;
at an in-flight state with an armed timer a second fire starts
nothing and only rearms. -/
theorem c4_witness :
    ((runEvents [Event.fire]).cyclesCompleted ≤ (runEvents [Event.fire]).cyclesStarted ∧
        (runEvents [Event.fire]).cyclesStarted ≤
          (runEvents [Event.fire]).cyclesCompleted + 1 ∧
        ((runEvents [Event.fire]).inFlight = true ↔
          (runEvents [Event.fire]).cyclesStarted =
            (runEvents [Event.fire]).cyclesCompleted + 1)) ∧
      (step ⟨true, true, true, 1, 0⟩ Event.fire).cyclesStarted =
          (SchedState.mk true true true 1 0).cyclesStarted ∧
        (step ⟨true, true, true, 1, 0⟩ Event.fire).inFlight = true ∧
        (step ⟨true, true, true, 1, 0⟩ Event.fire).timerArmed = true :=
  ⟨c4_single_cycle_in_flight.1 [Event.fire],
    (c4_single_cycle_in_flight.2 ⟨true, true, true, 1, 0⟩ rfl).1,
    (c4_single_cycle_in_flight.2 ⟨true, true, true, 1, 0⟩ rfl).2.1,
    (c4_single_cycle_in_flight.2 ⟨true, true, true, 1, 0⟩ rfl).2.2 rfl rfl⟩

/-- C8: `closeFunction` is idempotent (a second stop is a no-op and
raises nothing); a cycle in flight at stop time still completes
(`complete` still runs its `finally` bookkeeping), but `running` is
false forever after, `rearm` is a no-op, and no event sequence after a
stop can ever start another cycle. -/
theorem c8_stop_idempotent :
    (∀ s : SchedState, step (step s Event.stop) Event.stop = step s Event.stop) ∧
      (∀ s : SchedState, s.inFlight = true →
        (step (step s Event.stop) Event.complete).cyclesCompleted =
          s.cyclesCompleted + 1) ∧
      (∀ s : SchedState, s.running = false → rearm s = s) ∧
      (∀ (s : SchedState) (l : List Event),
        (l.foldl step (step s Event.stop)).cyclesStarted =
            (step s Event.stop).cyclesStarted ∧
          (l.foldl step (step s Event.stop)).running = false) := by
  refine ⟨fun s => rfl, ?_, ?_, ?_⟩
  · intro s hs
    obtain ⟨r, f, t, cs, cc⟩ := s
    simp_all [step, rearm]
  · intro s hs
    simp [rearm, hs]
  · intro s l
    obtain ⟨h1, h2, h3⟩ := stopped_foldl l (step s Event.stop) rfl rfl
    exact ⟨h3, h1⟩

/-- C8 witness: stopping twice from a concrete state equals stopping
once; a stop during an in-flight cycle still lets it complete; and the
trace `[complete, fire, stop]` after a stop starts no new cycle. -/
theorem c8_witness :
    step (step ⟨true, true, false, 1, 0⟩ Event.stop) Event.stop =
        step (SchedState.mk true true false 1 0) Event.stop ∧
      (step (step ⟨true, true, false, 1, 0⟩ Event.stop) Event.complete).cyclesCompleted =
        (SchedState.mk true true false 1 0).cyclesCompleted + 1 ∧
      rearm ⟨false, false, false, 1, 1⟩ = SchedState.mk false false false 1 1 ∧
      (([Event.complete, Event.fire, Event.stop].foldl step
            (step ⟨true, true, false, 1, 0⟩ Event.stop)).cyclesStarted =
          (step (SchedState.mk true true false 1 0) Event.stop).cyclesStarted ∧
        ([Event.complete, Event.fire, Event.stop].foldl step
            (step ⟨true, true, false, 1, 0⟩ Event.stop)).running = false) :=
  ⟨c8_stop_idempotent.1 ⟨true, true, false, 1, 0⟩,
    c8_stop_idempotent.2.1 ⟨true, true, false, 1, 0⟩ rfl,
    c8_stop_idempotent.2.2.1 ⟨false, false, false, 1, 1⟩ rfl,
    c8_stop_idempotent.2.2.2 ⟨true, true, false, 1, 0⟩
      [Event.complete, Event.fire, Event.stop]⟩

end SqsTrigger
